import Mathlib


/-!
Verification development for the CHIP-8 interpreter core (src/chip_8.rs).

Machine integers are modelled as Nat with explicit truncation (`% 256`,
`% 65536`) where the Rust code wraps or casts.  Rust array indexing, which
aborts the process when out of bounds, and integer arithmetic that aborts on
overflow in a checked build, are modelled in the Option monad: `none` stands
for an abort.  Fixed-size Rust arrays are modelled as total functions
`Nat → Nat` (or `Nat → Bool` for the framebuffer) together with an explicit
length carried by the access helpers.
-/

/-- Modelled from the spec: the `constants` module is declared in `main.rs`
but its source file is absent from the repository snapshot; spec section 3
fixes memory at 4096 bytes. -/
def RAM_LEN : Nat := 4096

/-- Modelled from the spec: 16 general-purpose registers (spec section 3). -/
def REGISTER_COUNT : Nat := 16

/-- Modelled from the spec: fixed-depth stack of 16 entries (spec section 3). -/
def STACK_LEN : Nat := 16

/-- Modelled from the spec: framebuffer width 64 (spec section 3). -/
def DISPLAY_WIDTH : Nat := 64

/-- Modelled from the spec: framebuffer height 32 (spec section 3). -/
def DISPLAY_HEIGHT : Nat := 32

/-- Modelled from the spec: row-major framebuffer, 64 by 32 cells. -/
def DISPLAY_LEN : Nat := DISPLAY_WIDTH * DISPLAY_HEIGHT

/-- Modelled from the spec: programs are loaded starting at offset 0x200. -/
def PROGRAM_START : Nat := 0x200

/-- Modelled from the spec: the font occupies a fixed low memory region; the
exact offset is not given by the spec and is immaterial to the claims. -/
def FONT_START : Nat := 0x50

/-- Platform selection, from `enum Platform` in chip_8.rs. -/
inductive Platform where
  | Chip8 : Platform
  | SuperChip : Platform

/-- Quirk flags, from `struct Quirks` in chip_8.rs. -/
structure Quirks where
  reset_flag : Bool
  increment_index_register : Bool
  shift_in_place : Bool
  jump_plus_x_register : Bool

/-- From `Quirks::new` in chip_8.rs. -/
def Quirks.new (platform : Platform) : Quirks :=
  match platform with
  | Platform.Chip8 =>
      { reset_flag := true
        increment_index_register := true
        shift_in_place := false
        jump_plus_x_register := false }
  | Platform.SuperChip =>
      { reset_flag := false
        increment_index_register := false
        shift_in_place := true
        jump_plus_x_register := true }

/-- Decoded instruction fields, from `struct ParsedInstruction` in chip_8.rs. -/
structure ParsedInstruction where
  opcode : Nat
  x : Nat
  y : Nat
  n : Nat
  nn : Nat
  nnn : Nat
  deriving DecidableEq

/-- From `ParsedInstruction::build` in chip_8.rs.  The `as u8` casts are the
trailing `% 256` truncations. -/
def ParsedInstruction.build (instruction : Nat) : ParsedInstruction :=
  { opcode := ((instruction &&& 0xF000) >>> 8) % 256
    x := ((instruction &&& 0x0F00) >>> 8) % 256
    y := ((instruction &&& 0x00F0) >>> 4) % 256
    n := (instruction &&& 0x000F) % 256
    nn := (instruction &&& 0x00FF) % 256
    nnn := instruction &&& 0x0FFF }

/-- The VM state, from `struct Chip8` in chip_8.rs (the external display,
audio and timing handles are omitted; they do not enter any instruction's
semantics). -/
structure Chip8 where
  ram : Nat → Nat
  registers : Nat → Nat
  stack : Nat → Nat
  delay_timer : Nat
  sound_timer : Nat
  index_register : Nat
  program_counter : Nat
  stack_pointer : Nat
  display_buffer : Nat → Bool
  update_display : Bool
  quirks : Quirks

/-- Read of a fixed-size Rust array: aborts (none) when out of bounds. -/
def arrGet (a : Nat → Nat) (len i : Nat) : Option Nat :=
  if i < len then some (a i) else none

/-- Write to a fixed-size Rust array: aborts (none) when out of bounds. -/
def arrSet (a : Nat → Nat) (len i v : Nat) : Option (Nat → Nat) :=
  if i < len then some (fun j => if j = i then v else a j) else none

namespace Chip8

/-- From `Chip8::fetch_instruction`: reads two bytes big-endian at the
program counter and advances it by 2. -/
def fetch_instruction (s : Chip8) : Option (Nat × Chip8) := do
  let instruction_first_byte ← arrGet s.ram RAM_LEN s.program_counter
  let instruction_second_byte ← arrGet s.ram RAM_LEN (s.program_counter + 1)
  some ((instruction_first_byte <<< 8) ||| instruction_second_byte,
    { s with program_counter := s.program_counter + 2 })

/-- From `Chip8::clear_screen` (0x00E0). -/
def clear_screen (s : Chip8) : Chip8 :=
  { s with display_buffer := fun _ => false, update_display := true }

/-- From `Chip8::return_from_subroutine` (0x00EE): aborts when the stack
pointer is zero, else pops the stack into the program counter. -/
def return_from_subroutine (s : Chip8) : Option Chip8 :=
  if s.stack_pointer = 0 then none
  else do
    let v ← arrGet s.stack STACK_LEN s.stack_pointer
    some { s with program_counter := v, stack_pointer := s.stack_pointer - 1 }

/-- From `Chip8::jump_to_address` (0x1NNN). -/
def jump_to_address (s : Chip8) (address : Nat) : Chip8 :=
  { s with program_counter := address }

/-- From `Chip8::call_subroutine_at_address` (0x2NNN): increments the stack
pointer (u8, aborts on overflow in a checked build), then writes the current
program counter (cast to u16) at the new stack index, then jumps. -/
def call_subroutine_at_address (s : Chip8) (address : Nat) : Option Chip8 :=
  if s.stack_pointer + 1 ≥ 256 then none
  else do
    let st ← arrSet s.stack STACK_LEN (s.stack_pointer + 1) (s.program_counter % 65536)
    some { s with stack_pointer := s.stack_pointer + 1
                  stack := st
                  program_counter := address }

/-- From `Chip8::skip_if_equal_to_value` (0x3XNN). -/
def skip_if_equal_to_value (s : Chip8) (register value : Nat) : Option Chip8 := do
  let v ← arrGet s.registers REGISTER_COUNT register
  if v = value then some { s with program_counter := s.program_counter + 2 }
  else some s

/-- From `Chip8::skip_if_not_equal_to_value` (0x4XNN). -/
def skip_if_not_equal_to_value (s : Chip8) (register value : Nat) : Option Chip8 := do
  let v ← arrGet s.registers REGISTER_COUNT register
  if v ≠ value then some { s with program_counter := s.program_counter + 2 }
  else some s

/-- From `Chip8::skip_if_equal_to_register` (0x5XY0). -/
def skip_if_equal_to_register (s : Chip8) (x_register y_register : Nat) : Option Chip8 := do
  let vx ← arrGet s.registers REGISTER_COUNT x_register
  let vy ← arrGet s.registers REGISTER_COUNT y_register
  if vx = vy then some { s with program_counter := s.program_counter + 2 }
  else some s

/-- From `Chip8::set_register_to_value` (0x6XNN). -/
def set_register_to_value (s : Chip8) (register value : Nat) : Option Chip8 := do
  let r ← arrSet s.registers REGISTER_COUNT register value
  some { s with registers := r }

/-- From `Chip8::add_value_to_register` (0x7XNN): wrapping 8-bit addition. -/
def add_value_to_register (s : Chip8) (register value : Nat) : Option Chip8 := do
  let v ← arrGet s.registers REGISTER_COUNT register
  let r ← arrSet s.registers REGISTER_COUNT register ((v + value) % 256)
  some { s with registers := r }

/-- From `Chip8::set_register_to_register` (0x8XY0). -/
def set_register_to_register (s : Chip8) (x_register y_register : Nat) : Option Chip8 := do
  let vy ← arrGet s.registers REGISTER_COUNT y_register
  let r ← arrSet s.registers REGISTER_COUNT x_register vy
  some { s with registers := r }

/-- From `Chip8::or_register_with_register` (0x8XY1). -/
def or_register_with_register (s : Chip8) (x_register y_register : Nat) : Option Chip8 := do
  let vx ← arrGet s.registers REGISTER_COUNT x_register
  let vy ← arrGet s.registers REGISTER_COUNT y_register
  let r ← arrSet s.registers REGISTER_COUNT x_register (vx ||| vy)
  let r2 ← if (Quirks.reset_flag s.quirks) then arrSet r REGISTER_COUNT 0x0F 0 else some r
  some { s with registers := r2 }

/-- From `Chip8::and_register_with_register` (0x8XY2). -/
def and_register_with_register (s : Chip8) (x_register y_register : Nat) : Option Chip8 := do
  let vx ← arrGet s.registers REGISTER_COUNT x_register
  let vy ← arrGet s.registers REGISTER_COUNT y_register
  let r ← arrSet s.registers REGISTER_COUNT x_register (vx &&& vy)
  let r2 ← if (Quirks.reset_flag s.quirks) then arrSet r REGISTER_COUNT 0x0F 0 else some r
  some { s with registers := r2 }

/-- From `Chip8::xor_register_with_register` (0x8XY3). -/
def xor_register_with_register (s : Chip8) (x_register y_register : Nat) : Option Chip8 := do
  let vx ← arrGet s.registers REGISTER_COUNT x_register
  let vy ← arrGet s.registers REGISTER_COUNT y_register
  let r ← arrSet s.registers REGISTER_COUNT x_register (vx ^^^ vy)
  let r2 ← if (Quirks.reset_flag s.quirks) then arrSet r REGISTER_COUNT 0x0F 0 else some r
  some { s with registers := r2 }

/-- From `Chip8::add_register_to_register` (0x8XY4): `overflowing_add`, the
sum truncated to 8 bits and the carry recorded in register 0xF. -/
def add_register_to_register (s : Chip8) (x_register y_register : Nat) : Option Chip8 := do
  let vx ← arrGet s.registers REGISTER_COUNT x_register
  let vy ← arrGet s.registers REGISTER_COUNT y_register
  let r ← arrSet s.registers REGISTER_COUNT x_register ((vx + vy) % 256)
  let r2 ← arrSet r REGISTER_COUNT 0x0F (if 256 ≤ vx + vy then 1 else 0)
  some { s with registers := r2 }

/-- From `Chip8::subtract_register_from_register` (0x8XY5): `overflowing_sub`
with the negated borrow recorded in register 0xF. -/
def subtract_register_from_register (s : Chip8) (x_register y_register : Nat) : Option Chip8 := do
  let vx ← arrGet s.registers REGISTER_COUNT x_register
  let vy ← arrGet s.registers REGISTER_COUNT y_register
  let r ← arrSet s.registers REGISTER_COUNT x_register ((vx + 256 - vy) % 256)
  let r2 ← arrSet r REGISTER_COUNT 0x0F (if vx < vy then 0 else 1)
  some { s with registers := r2 }

/-- From `Chip8::set_register_to_right_shifted_register` (0x8XY6): when the
shift-in-place quirk is disabled the X register is first overwritten with the
Y register; the pre-shift low bit is captured into register 0xF. -/
def set_register_to_right_shifted_register (s : Chip8) (x_register y_register : Nat) :
    Option Chip8 := do
  let r0 ←
    if Quirks.shift_in_place s.quirks then some s.registers
    else do
      let vy ← arrGet s.registers REGISTER_COUNT y_register
      arrSet s.registers REGISTER_COUNT x_register vy
  let vx ← arrGet r0 REGISTER_COUNT x_register
  let shift := vx &&& 0x01
  let r1 ← arrSet r0 REGISTER_COUNT x_register (vx >>> 1)
  let r2 ← arrSet r1 REGISTER_COUNT 0x0F shift
  some { s with registers := r2 }

/-- From `Chip8::subtract_register_from_register_flipped` (0x8XY7). -/
def subtract_register_from_register_flipped (s : Chip8) (x_register y_register : Nat) :
    Option Chip8 := do
  let vx ← arrGet s.registers REGISTER_COUNT x_register
  let vy ← arrGet s.registers REGISTER_COUNT y_register
  let r ← arrSet s.registers REGISTER_COUNT x_register ((vy + 256 - vx) % 256)
  let r2 ← arrSet r REGISTER_COUNT 0x0F (if vy < vx then 0 else 1)
  some { s with registers := r2 }

/-- From `Chip8::set_register_to_left_shifted_register` (0x8XYE): the
pre-shift high bit is captured into register 0xF; the u8 left shift discards
the bit shifted out (`% 256`). -/
def set_register_to_left_shifted_register (s : Chip8) (x_register y_register : Nat) :
    Option Chip8 := do
  let r0 ←
    if Quirks.shift_in_place s.quirks then some s.registers
    else do
      let vy ← arrGet s.registers REGISTER_COUNT y_register
      arrSet s.registers REGISTER_COUNT x_register vy
  let vx ← arrGet r0 REGISTER_COUNT x_register
  let shift := (vx &&& 0x80) >>> 7
  let r1 ← arrSet r0 REGISTER_COUNT x_register ((vx <<< 1) % 256)
  let r2 ← arrSet r1 REGISTER_COUNT 0x0F shift
  some { s with registers := r2 }

/-- From `Chip8::skip_if_not_equal_to_register` (0x9XY0). -/
def skip_if_not_equal_to_register (s : Chip8) (x_register y_register : Nat) : Option Chip8 := do
  let vx ← arrGet s.registers REGISTER_COUNT x_register
  let vy ← arrGet s.registers REGISTER_COUNT y_register
  if vx ≠ vy then some { s with program_counter := s.program_counter + 2 }
  else some s

/-- From `Chip8::set_index_register_to_value` (0xANNN). -/
def set_index_register_to_value (s : Chip8) (value : Nat) : Chip8 :=
  { s with index_register := value }

/-- From `Chip8::jump_to_address_with_offset` (0xBNNN): the offset register
is X or 0 depending on the quirk; the u16 addition aborts on overflow in a
checked build. -/
def jump_to_address_with_offset (s : Chip8) (x_register address : Nat) : Option Chip8 := do
  let offset ←
    if Quirks.jump_plus_x_register s.quirks then arrGet s.registers REGISTER_COUNT x_register
    else arrGet s.registers REGISTER_COUNT 0
  if address + offset ≥ 65536 then none
  else some { s with program_counter := address + offset }

/-- From `Chip8::set_register_to_random` (0xCXNN): `rand::random::<u8>()` is
modelled as the explicitly supplied byte `random_value`. -/
def set_register_to_random (s : Chip8) (register value random_value : Nat) : Option Chip8 := do
  let r ← arrSet s.registers REGISTER_COUNT register (random_value &&& value)
  some { s with registers := r }

/-- From `Chip8::skip_if_key_pressed` (0xEX9E): the pressed-key snapshot is
modelled as a list of key values. -/
def skip_if_key_pressed (s : Chip8) (register : Nat) (pressed_keys : List Nat) :
    Option Chip8 := do
  let key ← arrGet s.registers REGISTER_COUNT register
  if key ∈ pressed_keys then some { s with program_counter := s.program_counter + 2 }
  else some s

/-- From `Chip8::skip_if_key_not_pressed` (0xEXA1). -/
def skip_if_key_not_pressed (s : Chip8) (register : Nat) (pressed_keys : List Nat) :
    Option Chip8 := do
  let key ← arrGet s.registers REGISTER_COUNT register
  if key ∉ pressed_keys then some { s with program_counter := s.program_counter + 2 }
  else some s

/-- From `Chip8::set_register_to_delay_timer` (0xFX07). -/
def set_register_to_delay_timer (s : Chip8) (register : Nat) : Option Chip8 := do
  let r ← arrSet s.registers REGISTER_COUNT register s.delay_timer
  some { s with registers := r }

/-- From `Chip8::set_register_to_key_with_wait` (0xFX0A): with no key
pressed the program counter is rewound by 2 (usize subtraction, aborting on
underflow in a checked build); otherwise an arbitrary pressed key — here the
head of the snapshot list, matching `iter().next().unwrap()` — is stored. -/
def set_register_to_key_with_wait (s : Chip8) (register : Nat) (pressed_keys : List Nat) :
    Option Chip8 :=
  match pressed_keys with
  | [] =>
      if s.program_counter < 2 then none
      else some { s with program_counter := s.program_counter - 2 }
  | key :: _ => do
      let r ← arrSet s.registers REGISTER_COUNT register key
      some { s with registers := r }

/-- From `Chip8::set_delay_timer_to_register` (0xFX15). -/
def set_delay_timer_to_register (s : Chip8) (register : Nat) : Option Chip8 := do
  let v ← arrGet s.registers REGISTER_COUNT register
  some { s with delay_timer := v }

/-- From `Chip8::set_sound_timer_to_register` (0xFX18). -/
def set_sound_timer_to_register (s : Chip8) (register : Nat) : Option Chip8 := do
  let v ← arrGet s.registers REGISTER_COUNT register
  some { s with sound_timer := v }

/-- From `Chip8::add_register_to_index_register` (0xFX1E): u16 addition,
aborting on overflow in a checked build. -/
def add_register_to_index_register (s : Chip8) (register : Nat) : Option Chip8 := do
  let v ← arrGet s.registers REGISTER_COUNT register
  if s.index_register + v ≥ 65536 then none
  else some { s with index_register := s.index_register + v }

/-- From `Chip8::set_index_register_to_font_sprite` (0xFX29): the u8
multiplication by 5 aborts on overflow in a checked build. -/
def set_index_register_to_font_sprite (s : Chip8) (register : Nat) : Option Chip8 := do
  let v ← arrGet s.registers REGISTER_COUNT register
  if v * 5 ≥ 256 then none
  else some { s with index_register := v * 5 + FONT_START }

/-- From `Chip8::set_index_register_to_bcd` (0xFX33). -/
def set_index_register_to_bcd (s : Chip8) (register : Nat) : Option Chip8 := do
  let value ← arrGet s.registers REGISTER_COUNT register
  let r1 ← arrSet s.ram RAM_LEN s.index_register (value / 100)
  let r2 ← arrSet r1 RAM_LEN (s.index_register + 1) (value / 10 % 10)
  let r3 ← arrSet r2 RAM_LEN (s.index_register + 2) (value % 10)
  some { s with ram := r3 }

/-- The inner `for column in 0..8` loop of `Chip8::display` (0xDXYN),
structured on the number of remaining columns (`remaining` starts at 8 and
`column + remaining = 8` throughout).  The Rust `break` on a column falling
past the right edge returns the accumulated buffer and flag unchanged.  The
flag value written to register 0xF at the end of the draw is threaded
through as `vf`; the Rust code writes register 0xF eagerly inside the loop,
which is observationally the same single-threaded. -/
def drawCols (x_coordinate current_y_coordinate sprite_data : Nat) :
    Nat → Nat → (Nat → Bool) → Nat → ((Nat → Bool) × Nat)
  | _column, 0, buf, vf => (buf, vf)
  | column, remaining + 1, buf, vf =>
      let current_x_coordinate := x_coordinate + column
      if current_x_coordinate ≥ DISPLAY_WIDTH then (buf, vf)
      else
        let current_coordinate :=
          current_x_coordinate + current_y_coordinate * DISPLAY_WIDTH
        let vf' := if buf current_coordinate then 1 else vf
        let sprite_pixel := (sprite_data >>> (7 - column)) &&& 0x01
        let buf' :=
          if sprite_pixel = 1 then
            fun j => if j = current_coordinate then !(buf j) else buf j
          else buf
        drawCols x_coordinate current_y_coordinate sprite_data
          (column + 1) remaining buf' vf'

/-- The outer `for row in 0..height` loop of `Chip8::display` (0xDXYN),
structured on the number of remaining rows (`row + remaining = height`
throughout).  The Rust `break` on a row falling past the bottom edge stops;
the sprite byte read `ram[(index_register + row) as u16 as usize]` aborts on
u16 overflow (checked build) or an out-of-bounds index. -/
def drawRows (ram : Nat → Nat) (index_register x_coordinate y_coordinate : Nat) :
    Nat → Nat → (Nat → Bool) → Nat → Option ((Nat → Bool) × Nat)
  | _row, 0, buf, vf => some (buf, vf)
  | row, remaining + 1, buf, vf =>
      let current_y_coordinate := y_coordinate + row
      if current_y_coordinate ≥ DISPLAY_HEIGHT then some (buf, vf)
      else if index_register + row ≥ 65536 then none
      else do
        let sprite_data ← arrGet ram RAM_LEN (index_register + row)
        let p := drawCols x_coordinate current_y_coordinate sprite_data 0 8 buf vf
        drawRows ram index_register x_coordinate y_coordinate
          (row + 1) remaining p.1 p.2

/-- From `Chip8::display` (0xDXYN): coordinates are the X and Y registers
reduced modulo the display dimensions, register 0xF is reset to 0, the
sprite rows are drawn with clipping, and the final collision flag lands in
register 0xF. -/
def display (s : Chip8) (x_register y_register height : Nat) : Option Chip8 := do
  let vx ← arrGet s.registers REGISTER_COUNT x_register
  let vy ← arrGet s.registers REGISTER_COUNT y_register
  let x_coordinate := vx % DISPLAY_WIDTH
  let y_coordinate := vy % DISPLAY_HEIGHT
  let r0 ← arrSet s.registers REGISTER_COUNT 0x0F 0
  let p ← drawRows s.ram s.index_register x_coordinate y_coordinate 0 height
    s.display_buffer 0
  let r1 ← arrSet r0 REGISTER_COUNT 0x0F p.2
  some { s with registers := r1, display_buffer := p.1, update_display := true }

/-- One iteration of the `for i in 0..=x` loop of
`Chip8::store_registers_in_memory` (0xFX55). -/
def store_registers_step (s : Chip8) (i : Nat) : Option Chip8 :=
  if Quirks.increment_index_register s.quirks then do
    let v ← arrGet s.registers REGISTER_COUNT i
    let r ← arrSet s.ram RAM_LEN s.index_register v
    if s.index_register + 1 ≥ 65536 then none
    else some { s with ram := r, index_register := s.index_register + 1 }
  else do
    let v ← arrGet s.registers REGISTER_COUNT i
    let r ← arrSet s.ram RAM_LEN (s.index_register + i) v
    some { s with ram := r }

/-- The `for i in 0..=x` loop of `Chip8::store_registers_in_memory`,
structured on the number of remaining iterations. -/
def store_registers_go (i : Nat) (count : Nat) (s : Chip8) : Option Chip8 :=
  match count with
  | 0 => some s
  | count' + 1 => do
      let s' ← store_registers_step s i
      store_registers_go (i + 1) count' s'

/-- From `Chip8::store_registers_in_memory` (0xFX55). -/
def store_registers_in_memory (s : Chip8) (x : Nat) : Option Chip8 :=
  store_registers_go 0 (x + 1) s

/-- One iteration of the `for i in 0..=x` loop of
`Chip8::load_registers_from_memory` (0xFX65). -/
def load_registers_step (s : Chip8) (i : Nat) : Option Chip8 :=
  if Quirks.increment_index_register s.quirks then do
    let v ← arrGet s.ram RAM_LEN s.index_register
    let r ← arrSet s.registers REGISTER_COUNT i v
    if s.index_register + 1 ≥ 65536 then none
    else some { s with registers := r, index_register := s.index_register + 1 }
  else do
    let v ← arrGet s.ram RAM_LEN (s.index_register + i)
    let r ← arrSet s.registers REGISTER_COUNT i v
    some { s with registers := r }

/-- The `for i in 0..=x` loop of `Chip8::load_registers_from_memory`. -/
def load_registers_go (i : Nat) (count : Nat) (s : Chip8) : Option Chip8 :=
  match count with
  | 0 => some s
  | count' + 1 => do
      let s' ← load_registers_step s i
      load_registers_go (i + 1) count' s'

/-- From `Chip8::load_registers_from_memory` (0xFX65). -/
def load_registers_from_memory (s : Chip8) (x : Nat) : Option Chip8 :=
  load_registers_go 0 (x + 1) s

/-- From `Chip8::cycle`: fetch, decode, dispatch.  The pressed-key snapshot
is a list and the ambient `rand::random::<u8>()` call is the supplied
`random_value`; an unrecognized opcode or sub-opcode aborts (Rust panics).
Debug printing and the display-sink presentation at the end of the cycle
have no effect on the VM state and are omitted. -/
def cycle (s : Chip8) (pressed_keys : List Nat) (random_value : Nat) : Option Chip8 := do
  let fr ← fetch_instruction s
  let instruction := fr.1
  let s1 := fr.2
  let p := ParsedInstruction.build instruction
  match p.opcode with
  | 0x00 =>
      match p.nn with
      | 0xE0 => some (clear_screen s1)
      | 0xEE => return_from_subroutine s1
      | _ => none
  | 0x10 => some (jump_to_address s1 p.nnn)
  | 0x20 => call_subroutine_at_address s1 p.nnn
  | 0x30 => skip_if_equal_to_value s1 p.x p.nn
  | 0x40 => skip_if_not_equal_to_value s1 p.x p.nn
  | 0x50 => skip_if_equal_to_register s1 p.x p.y
  | 0x60 => set_register_to_value s1 p.x p.nn
  | 0x70 => add_value_to_register s1 p.x p.nn
  | 0x80 =>
      match p.n with
      | 0x00 => set_register_to_register s1 p.x p.y
      | 0x01 => or_register_with_register s1 p.x p.y
      | 0x02 => and_register_with_register s1 p.x p.y
      | 0x03 => xor_register_with_register s1 p.x p.y
      | 0x04 => add_register_to_register s1 p.x p.y
      | 0x05 => subtract_register_from_register s1 p.x p.y
      | 0x06 => set_register_to_right_shifted_register s1 p.x p.y
      | 0x07 => subtract_register_from_register_flipped s1 p.x p.y
      | 0x0E => set_register_to_left_shifted_register s1 p.x p.y
      | _ => none
  | 0x90 => skip_if_not_equal_to_register s1 p.x p.y
  | 0xA0 => some (set_index_register_to_value s1 p.nnn)
  | 0xB0 => jump_to_address_with_offset s1 p.x p.nnn
  | 0xC0 => set_register_to_random s1 p.x p.nn random_value
  | 0xD0 => display s1 p.x p.y p.n
  | 0xE0 =>
      match p.nn with
      | 0x9E => skip_if_key_pressed s1 p.x pressed_keys
      | 0xA1 => skip_if_key_not_pressed s1 p.x pressed_keys
      | _ => none
  | 0xF0 =>
      match p.nn with
      | 0x07 => set_register_to_delay_timer s1 p.x
      | 0x0A => set_register_to_key_with_wait s1 p.x pressed_keys
      | 0x15 => set_delay_timer_to_register s1 p.x
      | 0x18 => set_sound_timer_to_register s1 p.x
      | 0x1E => add_register_to_index_register s1 p.x
      | 0x29 => set_index_register_to_font_sprite s1 p.x
      | 0x33 => set_index_register_to_bcd s1 p.x
      | 0x55 => store_registers_in_memory s1 p.x
      | 0x65 => load_registers_from_memory s1 p.x
      | _ => none
  | _ => none

end Chip8


/-! Concrete states used to instantiate the theorems below. -/


/-- A concrete reset VM state (all memory, registers, stack and framebuffer
zeroed, program counter at the program start), used to instantiate theorems
at concrete inputs. -/
def initState : Chip8 :=
  { ram := fun _ => 0
    registers := fun _ => 0
    stack := fun _ => 0
    delay_timer := 0
    sound_timer := 0
    index_register := 0
    program_counter := PROGRAM_START
    stack_pointer := 0
    display_buffer := fun _ => false
    update_display := false
    quirks := Quirks.new Platform.Chip8 }

/-- A concrete state for the C5 counterexample: the flag register V15 holds
2 and the SuperChip profile (shift-in-place enabled) is selected. -/
def c5State : Chip8 :=
  { initState with
    registers := fun i => if i = 15 then 2 else 0
    quirks := Quirks.new Platform.SuperChip }

/-- A concrete state for the C9 witness: one pending call, return address
0x356 in stack slot 1. -/
def c9WitnessState : Chip8 :=
  { initState with
    stack_pointer := 1
    stack := fun j => if j = 1 then 0x356 else 0 }

/-- A concrete state for the C6 witness: index register 0x400 and
register Vi holding 10 + i. -/
def c6WitnessState : Chip8 :=
  { initState with
    index_register := 0x400
    registers := fun i => if i < 16 then 10 + i else 0 }

/-- A concrete state for the C7 witness: instruction 0xF10A (wait for key
into V1) at the program start. -/
def c7WitnessState : Chip8 :=
  { initState with
    ram := fun i => if i = 0x200 then 0xF1 else if i = 0x201 then 0x0A else 0 }

/-- A concrete state for the C8 witness: V0 = 60, V1 = 0, sprite byte 0xFF
at memory address 0 (the index register). -/
def c8WitnessState : Chip8 :=
  { initState with
    ram := fun i => if i = 0 then 0xFF else 0
    registers := fun i => if i = 0 then 60 else 0 }

/-- The C1 failing input: framebuffer cell 0 is lit, all memory is zero (so
every sprite bit of the drawn row is 0), V0 = V1 = 0 and the index register
is 0. -/
def c1FailingState : Chip8 :=
  { initState with display_buffer := fun j => j == 0 }


/-! Helper lemmas. -/


section MaskLemmas

lemma and_mask_shift (i k n : Nat) :
    i &&& ((2 ^ k - 1) <<< n) = i / 2 ^ n % 2 ^ k * 2 ^ n := by
  apply Nat.eq_of_testBit_eq
  intro j
  rw [Nat.testBit_and, Nat.testBit_shiftLeft, Nat.testBit_two_pow_sub_one]
  rw [show i / 2 ^ n % 2 ^ k * 2 ^ n = (i >>> n % 2 ^ k) <<< n by
    rw [Nat.shiftLeft_eq, Nat.shiftRight_eq_div_pow]]
  rw [Nat.testBit_shiftLeft, Nat.testBit_mod_two_pow, Nat.testBit_shiftRight]
  by_cases hn : n ≤ j
  · have hj : n + (j - n) = j := by omega
    simp [ge_iff_le, hn, hj, Bool.and_comm]
  · simp [ge_iff_le, hn]

lemma shiftLeft8_or_eq_add (b1 b2 : Nat) (h : b2 < 256) :
    (b1 <<< 8) ||| b2 = b1 * 256 + b2 := by
  apply Nat.eq_of_testBit_eq
  intro j
  rw [Nat.testBit_or, Nat.testBit_shiftLeft,
    show b1 * 256 + b2 = 2 ^ 8 * b1 + b2 by ring,
    Nat.testBit_mul_pow_two_add b1 (by norm_num [h] : b2 < 2 ^ 8)]
  by_cases hj : j < 8
  · simp only [hj, if_true]
    have : ¬ (j ≥ 8) := by omega
    simp [this]
  · simp only [hj, if_false]
    have hb2 : b2.testBit j = false := by
      apply Nat.testBit_eq_false_of_lt
      calc b2 < 256 := h
        _ ≤ 2 ^ j := by
          have : 8 ≤ j := by omega
          calc (256 : Nat) = 2 ^ 8 := by norm_num
            _ ≤ 2 ^ j := Nat.pow_le_pow_right (by norm_num) this
    have : j ≥ 8 := by omega
    simp [hb2, this]

lemma build_arith (i : Nat) :
    ParsedInstruction.build i =
      ⟨i / 4096 % 16 * 16, i / 256 % 16, i / 16 % 16, i % 16, i % 256, i % 4096⟩ := by
  have h1 : i &&& 0xF000 = i / 4096 % 16 * 4096 := by
    have := and_mask_shift i 4 12
    norm_num [Nat.shiftLeft_eq] at this
    convert this using 2
  have h2 : i &&& 0x0F00 = i / 256 % 16 * 256 := by
    have := and_mask_shift i 4 8
    norm_num [Nat.shiftLeft_eq] at this
    convert this using 2
  have h3 : i &&& 0x00F0 = i / 16 % 16 * 16 := by
    have := and_mask_shift i 4 4
    norm_num [Nat.shiftLeft_eq] at this
    convert this using 2
  have h4 : i &&& 0x000F = i % 16 := by
    have := Nat.and_pow_two_sub_one_eq_mod i 4
    norm_num at this
    exact this
  have h5 : i &&& 0x00FF = i % 256 := by
    have := Nat.and_pow_two_sub_one_eq_mod i 8
    norm_num at this
    exact this
  have h6 : i &&& 0x0FFF = i % 4096 := by
    have := Nat.and_pow_two_sub_one_eq_mod i 12
    norm_num at this
    exact this
  unfold ParsedInstruction.build
  rw [h1, h2, h3, h4, h5, h6]
  congr 1
  · rw [Nat.shiftRight_eq_div_pow]
    norm_num
    rw [Nat.mul_div_assoc _ (by norm_num : (256 : Nat) ∣ 4096)]
    norm_num
    omega
  · rw [Nat.shiftRight_eq_div_pow]
    norm_num
    omega
  · rw [Nat.shiftRight_eq_div_pow]
    norm_num
    omega
  · omega
  · omega

end MaskLemmas

section BlockTransfer

lemma store_go_on (count : Nat) : ∀ (i : Nat) (s : Chip8),
    Quirks.increment_index_register s.quirks = true →
    s.index_register + count ≤ RAM_LEN →
    i + count ≤ REGISTER_COUNT →
    ∃ s', Chip8.store_registers_go i count s = some s' ∧
      s'.index_register = s.index_register + count ∧
      s'.registers = s.registers ∧
      s'.quirks = s.quirks ∧
      s'.program_counter = s.program_counter ∧
      (∀ j, s'.ram j =
        if s.index_register ≤ j ∧ j < s.index_register + count
        then s.registers (i + (j - s.index_register)) else s.ram j) := by
  induction count with
  | zero =>
      intro i s _hq _hI _hr
      refine ⟨s, rfl, by omega, rfl, rfl, rfl, ?_⟩
      intro j
      rw [if_neg]
      omega
  | succ c ih =>
      intro i s hq hI hr
      simp only [RAM_LEN] at hI
      simp only [REGISTER_COUNT] at hr
      have hi : i < REGISTER_COUNT := by simp only [REGISTER_COUNT]; omega
      have hIlt : s.index_register < RAM_LEN := by simp only [RAM_LEN]; omega
      have hov : ¬ (s.index_register + 1 ≥ 65536) := by omega
      obtain ⟨s', hgo, hidx, hregs, hquirks, hpc, hram⟩ :=
        ih (i + 1)
          { s with ram := fun j => if j = s.index_register then s.registers i else s.ram j
                   index_register := s.index_register + 1 }
          (by simpa using hq)
          (by simpa [RAM_LEN] using by omega)
          (by simp only [REGISTER_COUNT]; omega)
      refine ⟨s', ?_, ?_, ?_, ?_, ?_, ?_⟩
      · rw [Chip8.store_registers_go]
        simp only [Chip8.store_registers_step, hq, if_true, arrGet, arrSet, hi, hIlt,
          if_pos, hov, if_neg, Option.bind_eq_bind, Option.bind_some]
        simpa using hgo
      · simp at hidx
        omega
      · simpa using hregs
      · simpa using hquirks
      · simpa using hpc
      · intro j
        have h1 := hram j
        dsimp only at h1
        rw [h1]
        by_cases hj1 : s.index_register + 1 ≤ j ∧ j < s.index_register + 1 + c
        · rw [if_pos hj1,
            if_pos (show s.index_register ≤ j ∧ j < s.index_register + (c + 1) by omega)]
          congr 1
          omega
        · rw [if_neg hj1]
          by_cases hj2 : j = s.index_register
          · rw [if_pos hj2,
              if_pos (show s.index_register ≤ j ∧ j < s.index_register + (c + 1) by omega)]
            subst hj2
            congr 1
            omega
          · rw [if_neg hj2,
              if_neg (show ¬ (s.index_register ≤ j ∧ j < s.index_register + (c + 1)) by omega)]

lemma store_go_off (count : Nat) : ∀ (i : Nat) (s : Chip8),
    Quirks.increment_index_register s.quirks = false →
    s.index_register + i + count ≤ RAM_LEN →
    i + count ≤ REGISTER_COUNT →
    ∃ s', Chip8.store_registers_go i count s = some s' ∧
      s'.index_register = s.index_register ∧
      s'.registers = s.registers ∧
      s'.quirks = s.quirks ∧
      s'.program_counter = s.program_counter ∧
      (∀ j, s'.ram j =
        if s.index_register + i ≤ j ∧ j < s.index_register + i + count
        then s.registers (j - s.index_register) else s.ram j) := by
  induction count with
  | zero =>
      intro i s _hq _hI _hr
      refine ⟨s, rfl, rfl, rfl, rfl, rfl, ?_⟩
      intro j
      rw [if_neg]
      omega
  | succ c ih =>
      intro i s hq hI hr
      simp only [RAM_LEN] at hI
      simp only [REGISTER_COUNT] at hr
      have hi : i < REGISTER_COUNT := by simp only [REGISTER_COUNT]; omega
      have hIlt : s.index_register + i < RAM_LEN := by simp only [RAM_LEN]; omega
      obtain ⟨s', hgo, hidx, hregs, hquirks, hpc, hram⟩ :=
        ih (i + 1)
          { s with ram := fun j => if j = s.index_register + i then s.registers i else s.ram j }
          (by simpa using hq)
          (by simpa [RAM_LEN] using by omega)
          (by simp only [REGISTER_COUNT]; omega)
      refine ⟨s', ?_, by simpa using hidx, by simpa using hregs,
        by simpa using hquirks, by simpa using hpc, ?_⟩
      · rw [Chip8.store_registers_go]
        simp only [Chip8.store_registers_step, hq, Bool.false_eq_true, if_false, arrGet,
          arrSet, hi, hIlt, if_pos, Option.bind_eq_bind, Option.bind_some]
        simpa using hgo
      · intro j
        have h1 := hram j
        dsimp only at h1
        rw [h1]
        by_cases hj1 : s.index_register + (i + 1) ≤ j ∧ j < s.index_register + (i + 1) + c
        · rw [if_pos hj1,
            if_pos (show s.index_register + i ≤ j ∧ j < s.index_register + i + (c + 1) by omega)]
        · rw [if_neg hj1]
          by_cases hj2 : j = s.index_register + i
          · rw [if_pos hj2,
              if_pos (show s.index_register + i ≤ j ∧ j < s.index_register + i + (c + 1) by omega)]
            subst hj2
            congr 1
            omega
          · rw [if_neg hj2,
              if_neg (show ¬ (s.index_register + i ≤ j ∧ j < s.index_register + i + (c + 1)) by omega)]

lemma load_go_on (count : Nat) : ∀ (i : Nat) (s : Chip8),
    Quirks.increment_index_register s.quirks = true →
    s.index_register + count ≤ RAM_LEN →
    i + count ≤ REGISTER_COUNT →
    ∃ s', Chip8.load_registers_go i count s = some s' ∧
      s'.index_register = s.index_register + count ∧
      s'.ram = s.ram ∧
      s'.quirks = s.quirks ∧
      s'.program_counter = s.program_counter ∧
      (∀ r, s'.registers r =
        if i ≤ r ∧ r < i + count
        then s.ram (s.index_register + (r - i)) else s.registers r) := by
  induction count with
  | zero =>
      intro i s _hq _hI _hr
      refine ⟨s, rfl, by omega, rfl, rfl, rfl, ?_⟩
      intro r
      rw [if_neg]
      omega
  | succ c ih =>
      intro i s hq hI hr
      simp only [RAM_LEN] at hI
      simp only [REGISTER_COUNT] at hr
      have hi : i < REGISTER_COUNT := by simp only [REGISTER_COUNT]; omega
      have hIlt : s.index_register < RAM_LEN := by simp only [RAM_LEN]; omega
      have hov : ¬ (s.index_register + 1 ≥ 65536) := by omega
      obtain ⟨s', hgo, hidx, hram, hquirks, hpc, hregs⟩ :=
        ih (i + 1)
          { s with registers := fun r => if r = i then s.ram s.index_register else s.registers r
                   index_register := s.index_register + 1 }
          (by simpa using hq)
          (by simpa [RAM_LEN] using by omega)
          (by simp only [REGISTER_COUNT]; omega)
      refine ⟨s', ?_, ?_, by simpa using hram, by simpa using hquirks, by simpa using hpc, ?_⟩
      · rw [Chip8.load_registers_go]
        simp only [Chip8.load_registers_step, hq, if_true, arrGet, arrSet, hi, hIlt,
          if_pos, hov, if_neg, Option.bind_eq_bind, Option.bind_some]
        simpa using hgo
      · simp at hidx
        omega
      · intro r
        have h1 := hregs r
        dsimp only at h1
        rw [h1]
        by_cases hr1 : i + 1 ≤ r ∧ r < i + 1 + c
        · rw [if_pos hr1, if_pos (show i ≤ r ∧ r < i + (c + 1) by omega)]
          congr 1
          omega
        · rw [if_neg hr1]
          by_cases hr2 : r = i
          · rw [if_pos hr2, if_pos (show i ≤ r ∧ r < i + (c + 1) by omega)]
            subst hr2
            congr 1
            omega
          · rw [if_neg hr2, if_neg (show ¬ (i ≤ r ∧ r < i + (c + 1)) by omega)]

lemma load_go_off (count : Nat) : ∀ (i : Nat) (s : Chip8),
    Quirks.increment_index_register s.quirks = false →
    s.index_register + i + count ≤ RAM_LEN →
    i + count ≤ REGISTER_COUNT →
    ∃ s', Chip8.load_registers_go i count s = some s' ∧
      s'.index_register = s.index_register ∧
      s'.ram = s.ram ∧
      s'.quirks = s.quirks ∧
      s'.program_counter = s.program_counter ∧
      (∀ r, s'.registers r =
        if i ≤ r ∧ r < i + count
        then s.ram (s.index_register + r) else s.registers r) := by
  induction count with
  | zero =>
      intro i s _hq _hI _hr
      refine ⟨s, rfl, rfl, rfl, rfl, rfl, ?_⟩
      intro r
      rw [if_neg]
      omega
  | succ c ih =>
      intro i s hq hI hr
      simp only [RAM_LEN] at hI
      simp only [REGISTER_COUNT] at hr
      have hi : i < REGISTER_COUNT := by simp only [REGISTER_COUNT]; omega
      have hIlt : s.index_register + i < RAM_LEN := by simp only [RAM_LEN]; omega
      obtain ⟨s', hgo, hidx, hram, hquirks, hpc, hregs⟩ :=
        ih (i + 1)
          { s with registers := fun r =>
              if r = i then s.ram (s.index_register + i) else s.registers r }
          (by simpa using hq)
          (by simpa [RAM_LEN] using by omega)
          (by simp only [REGISTER_COUNT]; omega)
      refine ⟨s', ?_, by simpa using hidx, by simpa using hram,
        by simpa using hquirks, by simpa using hpc, ?_⟩
      · rw [Chip8.load_registers_go]
        simp only [Chip8.load_registers_step, hq, Bool.false_eq_true, if_false, arrGet,
          arrSet, hi, hIlt, if_pos, Option.bind_eq_bind, Option.bind_some]
        simpa using hgo
      · intro r
        have h1 := hregs r
        dsimp only at h1
        rw [h1]
        by_cases hr1 : i + 1 ≤ r ∧ r < i + 1 + c
        · rw [if_pos hr1, if_pos (show i ≤ r ∧ r < i + (c + 1) by omega)]
        · rw [if_neg hr1]
          by_cases hr2 : r = i
          · rw [if_pos hr2, if_pos (show i ≤ r ∧ r < i + (c + 1) by omega)]
            subst hr2
            rfl
          · rw [if_neg hr2, if_neg (show ¬ (i ≤ r ∧ r < i + (c + 1)) by omega)]

end BlockTransfer

section DrawCharacterization

lemma drawCols_fst (x0 cy sprite j : Nat) :
    ∀ (remaining column : Nat) (buf : Nat → Bool) (vf : Nat),
    column + remaining = 8 →
    (Chip8.drawCols x0 cy sprite column remaining buf vf).1 j =
      if j / 64 = cy ∧ x0 + column ≤ j % 64 ∧ j % 64 < x0 + 8 ∧
          (sprite >>> (7 - (j % 64 - x0))) &&& 0x01 = 1
      then !(buf j) else buf j := by
  have hm : j % 64 < 64 := Nat.mod_lt _ (by norm_num)
  intro remaining
  induction remaining with
  | zero =>
      intro column buf vf hcol
      rw [Chip8.drawCols, if_neg]
      omega
  | succ r ih =>
      intro column buf vf hcol
      simp only [Chip8.drawCols, DISPLAY_WIDTH]
      by_cases hbreak : x0 + column ≥ 64
      · rw [if_pos hbreak, if_neg]
        omega
      · rw [if_neg hbreak]
        rw [ih (column + 1) _ _ (by omega)]
        by_cases hj_eq : j = x0 + column + cy * 64
        · have hj64 : j / 64 = cy := by omega
          have hjm : j % 64 = x0 + column := by omega
          have hcol8 : column < 8 := by omega
          have hsub : j % 64 - x0 = column := by omega
          rw [if_neg (show ¬ (j / 64 = cy ∧ x0 + (column + 1) ≤ j % 64 ∧
              j % 64 < x0 + 8 ∧
              (sprite >>> (7 - (j % 64 - x0))) &&& 0x01 = 1) by
            rintro ⟨-, h2, -, -⟩
            omega)]
          rw [hsub]
          by_cases hpix : (sprite >>> (7 - column)) &&& 0x01 = 1
          · simp only [if_pos hpix]
            rw [if_pos hj_eq,
              if_pos (show j / 64 = cy ∧ x0 + column ≤ j % 64 ∧ j % 64 < x0 + 8 ∧
                (sprite >>> (7 - column)) &&& 0x01 = 1 from
                ⟨hj64, by omega, by omega, hpix⟩)]
          · rw [if_neg hpix, if_neg (show ¬ (j / 64 = cy ∧ x0 + column ≤ j % 64 ∧
              j % 64 < x0 + 8 ∧ (sprite >>> (7 - column)) &&& 0x01 = 1) by
              rintro ⟨-, -, -, h4⟩
              exact hpix h4)]
        · have hbuf' :
              (if (sprite >>> (7 - column)) &&& 0x01 = 1 then
                fun j' => if j' = x0 + column + cy * 64 then !(buf j') else buf j'
              else buf) j = buf j := by
            by_cases hpix : (sprite >>> (7 - column)) &&& 0x01 = 1
            · rw [if_pos hpix, if_neg hj_eq]
            · rw [if_neg hpix]
          rw [hbuf']
          rw [if_congr (show (j / 64 = cy ∧ x0 + (column + 1) ≤ j % 64 ∧
              j % 64 < x0 + 8 ∧
              (sprite >>> (7 - (j % 64 - x0))) &&& 0x01 = 1) ↔
              (j / 64 = cy ∧ x0 + column ≤ j % 64 ∧ j % 64 < x0 + 8 ∧
              (sprite >>> (7 - (j % 64 - x0))) &&& 0x01 = 1) by
            constructor
            · rintro ⟨h1, h2, h3, h4⟩
              exact ⟨h1, by omega, h3, h4⟩
            · rintro ⟨h1, h2, h3, h4⟩
              refine ⟨h1, ?_, h3, h4⟩
              rcases Nat.eq_or_lt_of_le h2 with he | hl
              · exfalso
                exact hj_eq (by omega)
              · omega) rfl rfl]

lemma drawRows_char (ram : Nat → Nat) (I x0 y0 j n : Nat)
    (hj : j < 2048) :
    ∀ (remaining row : Nat) (buf : Nat → Bool) (vf : Nat),
    row + remaining = n → I + n ≤ 4096 →
    ∃ p, Chip8.drawRows ram I x0 y0 row remaining buf vf = some p ∧
      p.1 j =
        if y0 + row ≤ j / 64 ∧ j / 64 < y0 + n ∧ x0 ≤ j % 64 ∧ j % 64 < x0 + 8 ∧
            (ram (I + (j / 64 - y0)) >>> (7 - (j % 64 - x0))) &&& 0x01 = 1
        then !(buf j) else buf j := by
  have hj64 : j / 64 < 32 := by omega
  intro remaining
  induction remaining with
  | zero =>
      intro row buf vf hrow hI
      refine ⟨(buf, vf), rfl, ?_⟩
      rw [if_neg]
      rintro ⟨h1, h2, -, -, -⟩
      omega
  | succ r ih =>
      intro row buf vf hrow hI
      simp only [Chip8.drawRows, DISPLAY_HEIGHT]
      by_cases hy : y0 + row ≥ 32
      · rw [if_pos hy]
        refine ⟨(buf, vf), rfl, ?_⟩
        rw [if_neg]
        rintro ⟨h1, -, -, -, -⟩
        omega
      · rw [if_neg hy]
        have hrow_lt : row < n := by omega
        have hov : ¬ (I + row ≥ 65536) := by omega
        have hIr : I + row < RAM_LEN := by simp only [RAM_LEN]; omega
        rw [if_neg hov]
        simp only [arrGet, if_pos hIr, Option.bind_eq_bind, Option.some_bind]
        obtain ⟨p, hp, hchar⟩ :=
          ih (row + 1)
            (Chip8.drawCols x0 (y0 + row) (ram (I + row)) 0 8 buf vf).1
            (Chip8.drawCols x0 (y0 + row) (ram (I + row)) 0 8 buf vf).2
            (by omega) hI
        refine ⟨p, hp, ?_⟩
        rw [hchar, drawCols_fst x0 (y0 + row) (ram (I + row)) j 8 0 buf vf rfl]
        by_cases hcy : j / 64 = y0 + row
        · rw [if_neg (show ¬ (y0 + (row + 1) ≤ j / 64 ∧ j / 64 < y0 + n ∧
              x0 ≤ j % 64 ∧ j % 64 < x0 + 8 ∧
              (ram (I + (j / 64 - y0)) >>> (7 - (j % 64 - x0))) &&& 0x01 = 1) by
            rintro ⟨h1, -, -, -, -⟩
            omega)]
          have hsub : j / 64 - y0 = row := by omega
          rw [if_congr (show (j / 64 = y0 + row ∧ x0 + 0 ≤ j % 64 ∧ j % 64 < x0 + 8 ∧
              (ram (I + row) >>> (7 - (j % 64 - x0))) &&& 0x01 = 1) ↔
              (y0 + row ≤ j / 64 ∧ j / 64 < y0 + n ∧ x0 ≤ j % 64 ∧ j % 64 < x0 + 8 ∧
              (ram (I + (j / 64 - y0)) >>> (7 - (j % 64 - x0))) &&& 0x01 = 1) by
            rw [hsub]
            constructor
            · rintro ⟨h1, h2, h3, h4⟩
              exact ⟨by omega, by omega, by omega, h3, h4⟩
            · rintro ⟨h1, h2, h3, h4, h5⟩
              exact ⟨by omega, by omega, h4, h5⟩) rfl rfl]
        · rw [if_neg (show ¬ (j / 64 = y0 + row ∧ x0 + 0 ≤ j % 64 ∧ j % 64 < x0 + 8 ∧
              (ram (I + row) >>> (7 - (j % 64 - x0))) &&& 0x01 = 1) by
            rintro ⟨h1, -, -, -⟩
            exact hcy h1)]
          rw [if_congr (show (y0 + (row + 1) ≤ j / 64 ∧ j / 64 < y0 + n ∧
              x0 ≤ j % 64 ∧ j % 64 < x0 + 8 ∧
              (ram (I + (j / 64 - y0)) >>> (7 - (j % 64 - x0))) &&& 0x01 = 1) ↔
              (y0 + row ≤ j / 64 ∧ j / 64 < y0 + n ∧ x0 ≤ j % 64 ∧ j % 64 < x0 + 8 ∧
              (ram (I + (j / 64 - y0)) >>> (7 - (j % 64 - x0))) &&& 0x01 = 1) by
            constructor
            · rintro ⟨h1, h2, h3, h4, h5⟩
              exact ⟨by omega, h2, h3, h4, h5⟩
            · rintro ⟨h1, h2, h3, h4, h5⟩
              refine ⟨?_, h2, h3, h4, h5⟩
              rcases Nat.eq_or_lt_of_le h1 with he | hl
              · exact absurd he.symm hcy
              · omega) rfl rfl]

lemma display_buffer_char (s : Chip8) (x y n j : Nat)
    (hx : x < REGISTER_COUNT) (hy : y < REGISTER_COUNT) (hj : j < DISPLAY_LEN)
    (hI : s.index_register + n ≤ RAM_LEN) :
    (Chip8.display s x y n).map (fun t => t.display_buffer j) =
      some (if s.registers y % DISPLAY_HEIGHT ≤ j / DISPLAY_WIDTH ∧
          j / DISPLAY_WIDTH < s.registers y % DISPLAY_HEIGHT + n ∧
          s.registers x % DISPLAY_WIDTH ≤ j % DISPLAY_WIDTH ∧
          j % DISPLAY_WIDTH < s.registers x % DISPLAY_WIDTH + 8 ∧
          (s.ram (s.index_register +
              (j / DISPLAY_WIDTH - s.registers y % DISPLAY_HEIGHT)) >>>
            (7 - (j % DISPLAY_WIDTH - s.registers x % DISPLAY_WIDTH))) &&& 0x01 = 1
        then !(s.display_buffer j) else s.display_buffer j) := by
  have h15 : (0x0F : Nat) < REGISTER_COUNT := by norm_num [REGISTER_COUNT]
  obtain ⟨p, hp, hchar⟩ :=
    drawRows_char s.ram s.index_register (s.registers x % 64) (s.registers y % 32) j n
      (by simp only [DISPLAY_LEN, DISPLAY_WIDTH, DISPLAY_HEIGHT] at hj; omega)
      n 0 s.display_buffer 0 (by omega)
      (by simp only [RAM_LEN] at hI; omega)
  simp only [Chip8.display, arrGet, arrSet, if_pos hx, if_pos hy, if_pos h15,
    Option.bind_eq_bind, Option.some_bind, DISPLAY_WIDTH, DISPLAY_HEIGHT]
  rw [hp]
  simp only [Option.some_bind, Option.map_some']
  rw [hchar]
  simp only [Nat.add_zero, Nat.zero_add]


end DrawCharacterization


/-! Claim theorems. -/


/-- C1: evaluation of the draw handler at the failing input.  Drawing the
all-zero sprite byte over the lit cell leaves the flag register at 1, even
though no sprite bit is set — the code tests the framebuffer cell before
testing the sprite bit — while the claim (and spec section 8) require the
collision flag to be 1 only when a set sprite bit lands on a lit cell.  The
cell itself is not toggled. -/
theorem c1_collision_flag_without_set_bit :
    c1FailingState.display_buffer 0 = true ∧
      c1FailingState.ram c1FailingState.index_register = 0 ∧
      (Chip8.display c1FailingState 0 1 1).map (fun t => t.registers 0x0F) = some 1 ∧
      (Chip8.display c1FailingState 0 1 1).map (fun t => t.display_buffer 0) = some true := by
  refine ⟨by decide, by decide, by decide, by decide⟩

/-- C2 counterexample: from the reset state, whose program counter 0x200 is
even, the jump instruction with operand 0x201 leaves an odd program counter:
no handler enforces word alignment for odd operands. -/
theorem c2_odd_jump_breaks_alignment :
    initState.program_counter % 2 = 0 ∧
      (Chip8.jump_to_address initState 0x201).program_counter % 2 = 1 := by
  decide

/-- C2 (amended): jump sets the program counter to exactly NNN, call sets it
to exactly NNN, and jump-with-offset sets it to NNN plus the offset register
(VX or V0 per the quirk), so each preserves evenness exactly when its target
value is even; fetch always advances the program counter by 2 and every skip
handler advances it by 0 or 2, each preserving parity.  Word alignment is
thus an invariant only of programs whose jump and call targets are even, not
of the handlers for arbitrary operands. -/
theorem c2_program_counter_alignment (s : Chip8) (x y address value : Nat) :
    ((Chip8.jump_to_address s address).program_counter = address) ∧
    (address % 2 = 0 → (Chip8.jump_to_address s address).program_counter % 2 = 0) ∧
    (s.stack_pointer + 1 < STACK_LEN →
      (Chip8.call_subroutine_at_address s address).map
        (fun t => t.program_counter) = some address) ∧
    (x < REGISTER_COUNT →
      address + (if Quirks.jump_plus_x_register s.quirks
        then s.registers x else s.registers 0) < 65536 →
      (Chip8.jump_to_address_with_offset s x address).map
        (fun t => t.program_counter) =
        some (address + (if Quirks.jump_plus_x_register s.quirks
          then s.registers x else s.registers 0))) ∧
    (s.program_counter + 1 < RAM_LEN →
      (Chip8.fetch_instruction s).map (fun r => r.2.program_counter) =
        some (s.program_counter + 2)) ∧
    (x < REGISTER_COUNT →
      (Chip8.skip_if_equal_to_value s x value).map
        (fun t => t.program_counter % 2) = some (s.program_counter % 2)) ∧
    (x < REGISTER_COUNT →
      (Chip8.skip_if_not_equal_to_value s x value).map
        (fun t => t.program_counter % 2) = some (s.program_counter % 2)) ∧
    (x < REGISTER_COUNT → y < REGISTER_COUNT →
      (Chip8.skip_if_equal_to_register s x y).map
        (fun t => t.program_counter % 2) = some (s.program_counter % 2)) ∧
    (x < REGISTER_COUNT → y < REGISTER_COUNT →
      (Chip8.skip_if_not_equal_to_register s x y).map
        (fun t => t.program_counter % 2) = some (s.program_counter % 2)) := by
  refine ⟨rfl, ?_, ?_, ?_, ?_, ?_, ?_, ?_, ?_⟩
  · intro h
    simpa [Chip8.jump_to_address] using h
  · intro h
    have h1 : ¬ (s.stack_pointer + 1 ≥ 256) := by
      simp only [STACK_LEN] at h; omega
    simp [Chip8.call_subroutine_at_address, h1, arrSet, h]
  · intro hx hno
    have h0 : (0 : Nat) < REGISTER_COUNT := by norm_num [REGISTER_COUNT]
    cases hq : Quirks.jump_plus_x_register s.quirks
    · have hno' : ¬ (address + s.registers 0 ≥ 65536) := by
        simp only [hq, Bool.false_eq_true, if_false] at hno
        omega
      simp [Chip8.jump_to_address_with_offset, hq, arrGet, h0, hno']
    · have hno' : ¬ (address + s.registers x ≥ 65536) := by
        simp only [hq, if_true] at hno
        omega
      simp [Chip8.jump_to_address_with_offset, hq, arrGet, hx, hno']
  · intro hpc
    have hpc0 : s.program_counter < RAM_LEN := by omega
    simp [Chip8.fetch_instruction, arrGet, hpc, hpc0]
  · intro hx
    simp only [Chip8.skip_if_equal_to_value, arrGet, if_pos hx,
      Option.bind_eq_bind, Option.some_bind]
    by_cases hc : s.registers x = value
    · simp only [if_pos hc, Option.map_some']
      congr 1
      omega
    · simp [hc]
  · intro hx
    simp only [Chip8.skip_if_not_equal_to_value, arrGet, if_pos hx,
      Option.bind_eq_bind, Option.some_bind]
    by_cases hc : s.registers x = value
    · simp [hc]
    · simp only [if_pos hc, Option.map_some']
      congr 1
      omega
  · intro hx hy
    simp only [Chip8.skip_if_equal_to_register, arrGet, if_pos hx, if_pos hy,
      Option.bind_eq_bind, Option.some_bind]
    by_cases hc : s.registers x = s.registers y
    · simp only [if_pos hc, Option.map_some']
      congr 1
      omega
    · simp [hc]
  · intro hx hy
    simp only [Chip8.skip_if_not_equal_to_register, arrGet, if_pos hx, if_pos hy,
      Option.bind_eq_bind, Option.some_bind]
    by_cases hc : s.registers x = s.registers y
    · simp [hc]
    · simp only [if_pos hc, Option.map_some']
      congr 1
      omega

/-- C2 witness: the alignment theorem evaluated at the reset state, with the
call, offset-jump, fetch and skip side conditions discharged concretely. -/
theorem c2_program_counter_alignment_witness :
    ((0x204 : Nat) % 2 = 0 →
      (Chip8.jump_to_address initState 0x204).program_counter % 2 = 0) ∧
    (initState.stack_pointer + 1 < STACK_LEN →
      (Chip8.call_subroutine_at_address initState 0x204).map
        (fun t => t.program_counter) = some 0x204) ∧
    (initState.program_counter + 1 < RAM_LEN →
      (Chip8.fetch_instruction initState).map (fun r => r.2.program_counter) =
        some (initState.program_counter + 2)) ∧
    ((0 : Nat) < REGISTER_COUNT →
      (Chip8.skip_if_equal_to_value initState 0 0).map
        (fun t => t.program_counter % 2) = some (initState.program_counter % 2)) ∧
    ((0 : Nat) < REGISTER_COUNT →
      (Chip8.skip_if_not_equal_to_value initState 0 7).map
        (fun t => t.program_counter % 2) = some (initState.program_counter % 2)) ∧
    ((0 : Nat) < REGISTER_COUNT → (1 : Nat) < REGISTER_COUNT →
      (Chip8.skip_if_equal_to_register initState 0 1).map
        (fun t => t.program_counter % 2) = some (initState.program_counter % 2)) ∧
    ((0 : Nat) < REGISTER_COUNT → (1 : Nat) < REGISTER_COUNT →
      (Chip8.skip_if_not_equal_to_register initState 0 1).map
        (fun t => t.program_counter % 2) = some (initState.program_counter % 2)) :=
  ⟨fun h => ((c2_program_counter_alignment initState 0 1 0x204 0).2.1 h),
   fun h => ((c2_program_counter_alignment initState 0 1 0x204 0).2.2.1 h),
   fun h => ((c2_program_counter_alignment initState 0 1 0x204 0).2.2.2.2.1 h),
   fun h => ((c2_program_counter_alignment initState 0 1 0x204 0).2.2.2.2.2.1 h),
   fun h => ((c2_program_counter_alignment initState 0 1 0x204 7).2.2.2.2.2.2.1 h),
   fun h h' => ((c2_program_counter_alignment initState 0 1 0x204 0).2.2.2.2.2.2.2.1 h h'),
   fun h h' => ((c2_program_counter_alignment initState 0 1 0x204 0).2.2.2.2.2.2.2.2 h h')⟩

/-- C3 counterexample: on instruction 0x1234 the decoder's `opcode` field is
16 (the top nibble shifted left by 4), not the top nibble 1 that the claim
states. -/
theorem c3_opcode_not_top_nibble :
    (ParsedInstruction.build 0x1234).opcode = 16 ∧
      (ParsedInstruction.build 0x1234).opcode ≠ 1 := by
  decide

/-- C3 (amended): for every 16-bit instruction the decoder is pure and total
and returns X = bits 11..8, Y = bits 7..4, N = the low nibble, NN = the low
byte and NNN = the low 12 bits as claimed, but the `opcode` field is the top
4-bit nibble shifted left by 4 (value 16 times the nibble, matching the
dispatch table's 0x10, 0x20, ... arms), not the bare nibble. -/
theorem c3_decoder_fields (i : Nat) (h : i < 65536) :
    ParsedInstruction.build i =
      { opcode := i / 4096 * 16
        x := i / 256 % 16
        y := i / 16 % 16
        n := i % 16
        nn := i % 256
        nnn := i % 4096 } := by
  have h16 : i / 4096 < 16 := by omega
  rw [build_arith, Nat.mod_eq_of_lt h16]

/-- C3 witness: the amended decoder theorem evaluated at 0xABCD. -/
theorem c3_decoder_fields_witness :
    (0xABCD : Nat) < 65536 ∧
      ParsedInstruction.build 0xABCD =
        { opcode := 0xABCD / 4096 * 16
          x := 0xABCD / 256 % 16
          y := 0xABCD / 16 % 16
          n := 0xABCD % 16
          nn := 0xABCD % 256
          nnn := 0xABCD % 4096 } :=
  ⟨by decide, c3_decoder_fields 0xABCD (by decide)⟩

/-- C4: for 8-bit register values a (in VX) and b (in VY), with X not the
flag register itself: add-with-flag (0x8XY4) stores (a+b) mod 256 in VX and
sets VF to 1 iff a+b exceeds 255; subtract (0x8XY5) stores (a-b) mod 256 and
sets VF to 1 iff no borrow (a at least b); reversed subtract (0x8XY7) stores
(b-a) mod 256 and sets VF to 1 iff b at least a. -/
theorem c4_arithmetic_flags (s : Chip8) (x y : Nat)
    (hx : x < REGISTER_COUNT) (hy : y < REGISTER_COUNT) (hxF : x ≠ 0x0F)
    (_ha : s.registers x < 256) (_hb : s.registers y < 256) :
    (Chip8.add_register_to_register s x y).map
        (fun t => (t.registers x, t.registers 0x0F)) =
      some ((s.registers x + s.registers y) % 256,
        if 255 < s.registers x + s.registers y then 1 else 0) ∧
    (Chip8.subtract_register_from_register s x y).map
        (fun t => (t.registers x, t.registers 0x0F)) =
      some ((s.registers x + 256 - s.registers y) % 256,
        if s.registers y ≤ s.registers x then 1 else 0) ∧
    (Chip8.subtract_register_from_register_flipped s x y).map
        (fun t => (t.registers x, t.registers 0x0F)) =
      some ((s.registers y + 256 - s.registers x) % 256,
        if s.registers x ≤ s.registers y then 1 else 0) := by
  have h15 : (0x0F : Nat) < REGISTER_COUNT := by norm_num [REGISTER_COUNT]
  refine ⟨?_, ?_, ?_⟩ <;>
    simp only [Chip8.add_register_to_register, Chip8.subtract_register_from_register,
      Chip8.subtract_register_from_register_flipped, arrGet, arrSet,
      hx, hy, h15, if_pos, Option.bind_eq_bind, Option.bind_some, Option.map_some] <;>
    simp [hxF, Ne.symm hxF] <;>
    split_ifs <;> omega

/-- C4 witness: the arithmetic theorem evaluated at a state with V0 = 250
and V1 = 10. -/
theorem c4_arithmetic_flags_witness :
    (0 : Nat) < REGISTER_COUNT ∧ (1 : Nat) < REGISTER_COUNT ∧ (0 : Nat) ≠ 0x0F ∧
      ({ initState with registers := fun i => if i = 0 then 250 else if i = 1 then 10 else 0 } :
        Chip8).registers 0 < 256 ∧
      ({ initState with registers := fun i => if i = 0 then 250 else if i = 1 then 10 else 0 } :
        Chip8).registers 1 < 256 ∧
      ((Chip8.add_register_to_register
          { initState with registers := fun i => if i = 0 then 250 else if i = 1 then 10 else 0 }
          0 1).map (fun t => (t.registers 0, t.registers 0x0F)) = some (4, 1)) := by
  refine ⟨by decide, by decide, by decide, by decide, by decide, ?_⟩
  have h := c4_arithmetic_flags
    { initState with registers := fun i => if i = 0 then 250 else if i = 1 then 10 else 0 }
    0 1 (by decide) (by decide) (by decide) (by decide) (by decide)
  rw [h.1]
  decide

/-- C5 counterexample: with X = Y = 0xF and V15 = 2, shift-right in place
leaves V15 = 0 — the final flag write overwrites the shifted value — while
the claim, which quantifies over every pair of register indices, demands
that VX end holding the shifted value 2 >>> 1 = 1. -/
theorem c5_flag_register_shift :
    (Chip8.set_register_to_right_shifted_register c5State 15 15).map
        (fun t => t.registers 15) = some 0 ∧
      c5State.registers 15 >>> 1 = 1 := by
  decide

/-- C5 (amended): for both shifts, for every pair of register indices with
X not the flag register 0xF itself: if the shift-in-place quirk is disabled
the source value is VY (VX is first overwritten with it), else VX; the bit
shifted out — the pre-shift low bit for shift-right, the pre-shift high bit
for shift-left — is captured into VF, and VX ends holding the shifted value.
When X = 0xF the trailing flag write overwrites the shifted value, so that
case is excluded. -/
theorem c5_shift_semantics (s : Chip8) (x y : Nat)
    (hx : x < REGISTER_COUNT) (hy : y < REGISTER_COUNT) (hxF : x ≠ 0x0F) :
    ((Chip8.set_register_to_right_shifted_register s x y).map
        (fun t => (t.registers x, t.registers 0x0F)) =
      some ((if Quirks.shift_in_place s.quirks then s.registers x else s.registers y) >>> 1,
        (if Quirks.shift_in_place s.quirks then s.registers x else s.registers y) &&& 0x01)) ∧
    ((Chip8.set_register_to_left_shifted_register s x y).map
        (fun t => (t.registers x, t.registers 0x0F)) =
      some (((if Quirks.shift_in_place s.quirks then s.registers x else s.registers y) <<< 1) % 256,
        ((if Quirks.shift_in_place s.quirks then s.registers x else s.registers y) &&& 0x80) >>> 7)) := by
  have h15 : (0x0F : Nat) < REGISTER_COUNT := by norm_num [REGISTER_COUNT]
  cases hq : Quirks.shift_in_place s.quirks <;>
    constructor <;>
    simp only [Chip8.set_register_to_right_shifted_register,
      Chip8.set_register_to_left_shifted_register, arrGet, arrSet,
      hq, hx, hy, h15, if_pos, if_true, if_false, Bool.false_eq_true,
      Option.bind_eq_bind, Option.bind_some, Option.map_some] <;>
    simp [hxF, Ne.symm hxF]

/-- C5 witness: the amended shift theorem evaluated with X = 2, Y = 3,
V3 = 0x81, on the base profile (quirk disabled): the source is VY, VX ends
holding 0x81 >>> 1 = 0x40 and VF captures the low bit 1. -/
theorem c5_shift_semantics_witness :
    (2 : Nat) < REGISTER_COUNT ∧ (3 : Nat) < REGISTER_COUNT ∧ (2 : Nat) ≠ 0x0F ∧
      ((Chip8.set_register_to_right_shifted_register
          { initState with registers := fun i => if i = 3 then 0x81 else 0 } 2 3).map
        (fun t => (t.registers 2, t.registers 0x0F)) = some (0x40, 1)) := by
  refine ⟨by decide, by decide, by decide, ?_⟩
  have h := c5_shift_semantics
    { initState with registers := fun i => if i = 3 then 0x81 else 0 }
    2 3 (by decide) (by decide) (by decide)
  rw [h.1]
  decide

/-- C9: return-from-subroutine aborts exactly when the stack pointer is
zero; otherwise it sets the program counter to the stack entry at the
current stack pointer, decrements the stack pointer, and leaves every other
component of the state — memory, registers, index register, timers, stack
contents, framebuffer — unchanged. -/
theorem c9_return_semantics (s : Chip8) (hsp : s.stack_pointer < STACK_LEN) :
    (Chip8.return_from_subroutine s = none ↔ s.stack_pointer = 0) ∧
    (s.stack_pointer ≠ 0 →
      Chip8.return_from_subroutine s =
        some { s with program_counter := s.stack s.stack_pointer
                      stack_pointer := s.stack_pointer - 1 }) := by
  unfold Chip8.return_from_subroutine
  by_cases h0 : s.stack_pointer = 0
  · simp [h0]
  · simp [h0, arrGet, hsp]

/-- C9 witness: the return theorem evaluated at a state with stack pointer 1
and return address 0x356 in stack slot 1. -/
theorem c9_return_semantics_witness :
    (c9WitnessState.stack_pointer < STACK_LEN) ∧
      ((c9WitnessState.stack_pointer ≠ 0 →
        Chip8.return_from_subroutine c9WitnessState =
          some { c9WitnessState with
                  program_counter := c9WitnessState.stack c9WitnessState.stack_pointer
                  stack_pointer := c9WitnessState.stack_pointer - 1 })) :=
  ⟨by decide, (c9_return_semantics c9WitnessState (by decide)).2⟩

/-- C10: the call instruction increments the stack pointer before writing,
so the return address lands at index stack-pointer + 1, slot 0 is never
written and all other slots are preserved; with stack pointer at most 14 the
push stays inside the 16-entry stack, while a call at stack pointer 15 (a
sixteenth pending call) indexes past the end and aborts. -/
theorem c10_call_stack_discipline (s : Chip8) (address : Nat) :
    (s.stack_pointer ≤ 14 →
      Chip8.call_subroutine_at_address s address =
        some { s with
                stack_pointer := s.stack_pointer + 1
                stack := fun j => if j = s.stack_pointer + 1
                  then s.program_counter % 65536 else s.stack j
                program_counter := address }) ∧
    (s.stack_pointer ≤ 14 →
      (Chip8.call_subroutine_at_address s address).map (fun t => t.stack 0) =
        some (s.stack 0)) ∧
    (s.stack_pointer = 15 → Chip8.call_subroutine_at_address s address = none) := by
  refine ⟨?_, ?_, ?_⟩
  · intro h
    have h1 : ¬ (s.stack_pointer + 1 ≥ 256) := by omega
    have h2 : s.stack_pointer + 1 < STACK_LEN := by
      simp only [STACK_LEN]; omega
    simp [Chip8.call_subroutine_at_address, h1, arrSet, h2]
  · intro h
    have h1 : ¬ (s.stack_pointer + 1 ≥ 256) := by omega
    have h2 : s.stack_pointer + 1 < STACK_LEN := by
      simp only [STACK_LEN]; omega
    simp [Chip8.call_subroutine_at_address, h1, arrSet, h2]
  · intro h
    have h1 : ¬ (s.stack_pointer + 1 ≥ 256) := by omega
    have h2 : ¬ (s.stack_pointer + 1 < STACK_LEN) := by
      simp only [STACK_LEN]; omega
    simp [Chip8.call_subroutine_at_address, h1, arrSet, h2]

/-- C10 witness: the call theorem evaluated at the reset state (stack
pointer 0, program counter 0x200) calling address 0x300. -/
theorem c10_call_stack_discipline_witness :
    initState.stack_pointer ≤ 14 ∧
      Chip8.call_subroutine_at_address initState 0x300 =
        some { initState with
                stack_pointer := initState.stack_pointer + 1
                stack := fun j => if j = initState.stack_pointer + 1
                  then initState.program_counter % 65536 else initState.stack j
                program_counter := 0x300 } :=
  ⟨by decide, (c10_call_stack_discipline initState 0x300).1 (by decide)⟩

/-- C6: block store (0xFX55) and block load (0xFX65) leave the index
register equal to its starting value plus X+1 (the count of registers
copied) when the auto-increment quirk is enabled and unchanged when it is
disabled, and in both modes the same bytes move between memory cells
I..I+X and registers V0..VX: after a store the cell at I+i holds Vi, and
after a load Vi holds the byte at I+i. -/
theorem c6_block_transfer (s : Chip8) (x i : Nat) (hx : x < REGISTER_COUNT)
    (hi : i ≤ x) (hI : s.index_register + (x + 1) ≤ RAM_LEN) :
    (∃ s', Chip8.store_registers_in_memory s x = some s' ∧
      s'.index_register = (if Quirks.increment_index_register s.quirks
        then s.index_register + (x + 1) else s.index_register) ∧
      s'.registers = s.registers ∧
      s'.ram (s.index_register + i) = s.registers i) ∧
    (∃ s'', Chip8.load_registers_from_memory s x = some s'' ∧
      s''.index_register = (if Quirks.increment_index_register s.quirks
        then s.index_register + (x + 1) else s.index_register) ∧
      s''.ram = s.ram ∧
      s''.registers i = s.ram (s.index_register + i)) := by
  have hreg : 0 + (x + 1) ≤ REGISTER_COUNT := by
    simp only [REGISTER_COUNT] at hx ⊢
    omega
  cases hq : Quirks.increment_index_register s.quirks
  · constructor
    · obtain ⟨s', hgo, hidx, hregs, _, _, hram⟩ :=
        store_go_off (x + 1) 0 s hq (by omega) hreg
      refine ⟨s', hgo, ?_, hregs, ?_⟩
      · simp [hidx]
      · rw [hram (s.index_register + i), if_pos (by omega)]
        congr 1
        omega
    · obtain ⟨s'', hgo, hidx, hram, _, _, hregs⟩ :=
        load_go_off (x + 1) 0 s hq (by omega) hreg
      refine ⟨s'', hgo, ?_, hram, ?_⟩
      · simp [hidx]
      · rw [hregs i, if_pos (by omega)]
  · constructor
    · obtain ⟨s', hgo, hidx, hregs, _, _, hram⟩ :=
        store_go_on (x + 1) 0 s hq hI hreg
      refine ⟨s', hgo, ?_, hregs, ?_⟩
      · simp [hidx]
      · rw [hram (s.index_register + i), if_pos (by omega)]
        congr 1
        omega
    · obtain ⟨s'', hgo, hidx, hram, _, _, hregs⟩ :=
        load_go_on (x + 1) 0 s hq hI hreg
      refine ⟨s'', hgo, ?_, hram, ?_⟩
      · simp [hidx]
      · rw [hregs i, if_pos (by omega)]
        congr 1

/-- C6 witness: the block-transfer theorem evaluated at index register
0x400 with X = 3 and i = 2 on the base profile (auto-increment enabled). -/
theorem c6_block_transfer_witness :
    (3 : Nat) < REGISTER_COUNT ∧ (2 : Nat) ≤ 3 ∧
      c6WitnessState.index_register + (3 + 1) ≤ RAM_LEN ∧
      ((∃ s', Chip8.store_registers_in_memory c6WitnessState 3 = some s' ∧
        s'.index_register = (if Quirks.increment_index_register c6WitnessState.quirks
          then c6WitnessState.index_register + (3 + 1) else c6WitnessState.index_register) ∧
        s'.registers = c6WitnessState.registers ∧
        s'.ram (c6WitnessState.index_register + 2) = c6WitnessState.registers 2) ∧
      (∃ s'', Chip8.load_registers_from_memory c6WitnessState 3 = some s'' ∧
        s''.index_register = (if Quirks.increment_index_register c6WitnessState.quirks
          then c6WitnessState.index_register + (3 + 1) else c6WitnessState.index_register) ∧
        s''.ram = c6WitnessState.ram ∧
        s''.registers 2 = c6WitnessState.ram (c6WitnessState.index_register + 2))) :=
  ⟨by decide, by decide, by decide,
    c6_block_transfer c6WitnessState 3 2 (by decide) (by decide) (by decide)⟩

/-- C7: executing key-wait (0xFX0A) within a cycle, fetch then execute:
with no key pressed the rewind by one instruction width exactly cancels the
fetch's advance, so the cycle maps the state to itself — same program
counter, all registers and memory unchanged, the same instruction refetched
next cycle; with a key pressed, the head of the pressed-key snapshot is
stored in VX and the program counter rests at the next instruction. -/
theorem c7_key_wait_cycle (s : Chip8) (x : Nat) (pressed : List Nat)
    (random_value : Nat) (hx : x < 16) (hpc : s.program_counter + 1 < RAM_LEN)
    (hb1 : s.ram s.program_counter = 0xF0 + x)
    (hb2 : s.ram (s.program_counter + 1) = 0x0A) :
    (pressed = [] → Chip8.cycle s pressed random_value = some s) ∧
    (∀ k rest, pressed = k :: rest →
      Chip8.cycle s pressed random_value =
        some { s with program_counter := s.program_counter + 2
                      registers := fun j => if j = x then k else s.registers j } ∧
        k ∈ pressed) := by
  have hpc0 : s.program_counter < RAM_LEN := by omega
  have hfetch : Chip8.fetch_instruction s =
      some (((0xF0 + x) <<< 8) ||| 0x0A,
        { s with program_counter := s.program_counter + 2 }) := by
    simp [Chip8.fetch_instruction, arrGet, hpc0, hpc, hb1, hb2]
  have hins : ((0xF0 + x) <<< 8) ||| 0x0A = (240 + x) * 256 + 10 :=
    shiftLeft8_or_eq_add _ _ (by norm_num)
  have hbuild : ParsedInstruction.build ((240 + x) * 256 + 10) =
      ⟨240, x, 0, 10, 10, 256 * x + 10⟩ := by
    rw [build_arith]
    congr 1 <;> omega
  have hcyc : Chip8.cycle s pressed random_value =
      Chip8.set_register_to_key_with_wait
        { s with program_counter := s.program_counter + 2 } x pressed := by
    rw [Chip8.cycle, hfetch, hins]
    simp only [Option.bind_eq_bind, Option.some_bind]
    rw [hbuild]
    rfl
  constructor
  · intro hp
    subst hp
    rw [hcyc, Chip8.set_register_to_key_with_wait]
    simp only [if_neg (show ¬ (s.program_counter + 2 < 2) by omega)]
    rfl
  · intro k rest hp
    subst hp
    refine ⟨?_, List.mem_cons_self k rest⟩
    rw [hcyc, Chip8.set_register_to_key_with_wait]
    simp [arrSet, REGISTER_COUNT, hx]

/-- C7 witness: the key-wait cycle theorem evaluated on instruction 0xF10A,
once with no key pressed (the cycle fixes the state) and once with key 7
pressed (stored in V1, program counter advanced). -/
theorem c7_key_wait_cycle_witness :
    (1 : Nat) < 16 ∧ c7WitnessState.program_counter + 1 < RAM_LEN ∧
      c7WitnessState.ram c7WitnessState.program_counter = 0xF0 + 1 ∧
      c7WitnessState.ram (c7WitnessState.program_counter + 1) = 0x0A ∧
      Chip8.cycle c7WitnessState [] 0 = some c7WitnessState ∧
      (Chip8.cycle c7WitnessState [7] 0 =
        some { c7WitnessState with
                program_counter := c7WitnessState.program_counter + 2
                registers := fun j => if j = 1 then 7 else c7WitnessState.registers j } ∧
        (7 : Nat) ∈ [7]) :=
  ⟨by decide, by decide, by decide, by decide,
    (c7_key_wait_cycle c7WitnessState 1 [] 0 (by decide) (by decide)
      (by decide) (by decide)).1 rfl,
    (c7_key_wait_cycle c7WitnessState 1 [7] 0 (by decide) (by decide)
      (by decide) (by decide)).2 7 [] rfl⟩

/-- C8: the draw instruction starts at coordinates VX mod 64 and VY mod 32,
and a framebuffer cell (cx, cy) = (j mod 64, j div 64) is toggled exactly
when it lies in the clipped sprite footprint — at most 8 columns rightward
and N rows downward from the start, never wrapping past the right or bottom
edge — and the corresponding sprite bit is 1; every other cell is unchanged.
The result is identical under both platform quirk profiles. -/
theorem c8_draw_modulo_and_clipping (s : Chip8) (x y n j : Nat) (q q' : Quirks)
    (hx : x < REGISTER_COUNT) (hy : y < REGISTER_COUNT) (hj : j < DISPLAY_LEN)
    (hI : s.index_register + n ≤ RAM_LEN) :
    ((Chip8.display s x y n).map (fun t => t.display_buffer j) =
      some (if s.registers y % DISPLAY_HEIGHT ≤ j / DISPLAY_WIDTH ∧
          j / DISPLAY_WIDTH < s.registers y % DISPLAY_HEIGHT + n ∧
          s.registers x % DISPLAY_WIDTH ≤ j % DISPLAY_WIDTH ∧
          j % DISPLAY_WIDTH < s.registers x % DISPLAY_WIDTH + 8 ∧
          (s.ram (s.index_register +
              (j / DISPLAY_WIDTH - s.registers y % DISPLAY_HEIGHT)) >>>
            (7 - (j % DISPLAY_WIDTH - s.registers x % DISPLAY_WIDTH))) &&& 0x01 = 1
        then !(s.display_buffer j) else s.display_buffer j)) ∧
    ((Chip8.display { s with quirks := q } x y n).map (fun t => t.display_buffer j) =
      (Chip8.display { s with quirks := q' } x y n).map (fun t => t.display_buffer j)) := by
  refine ⟨display_buffer_char s x y n j hx hy hj hI, ?_⟩
  rw [display_buffer_char { s with quirks := q } x y n j hx hy hj hI,
    display_buffer_char { s with quirks := q' } x y n j hx hy hj hI]

/-- C8 witness: the draw theorem evaluated at V0 = 60 with an all-ones
sprite row, at cell j = 60 (column 60 of row 0), for the two platform
profiles. -/
theorem c8_draw_modulo_and_clipping_witness :
    (0 : Nat) < REGISTER_COUNT ∧ (1 : Nat) < REGISTER_COUNT ∧
      (60 : Nat) < DISPLAY_LEN ∧
      c8WitnessState.index_register + 1 ≤ RAM_LEN ∧
      (((Chip8.display c8WitnessState 0 1 1).map (fun t => t.display_buffer 60) =
        some (if c8WitnessState.registers 1 % DISPLAY_HEIGHT ≤ 60 / DISPLAY_WIDTH ∧
            60 / DISPLAY_WIDTH < c8WitnessState.registers 1 % DISPLAY_HEIGHT + 1 ∧
            c8WitnessState.registers 0 % DISPLAY_WIDTH ≤ 60 % DISPLAY_WIDTH ∧
            60 % DISPLAY_WIDTH < c8WitnessState.registers 0 % DISPLAY_WIDTH + 8 ∧
            (c8WitnessState.ram (c8WitnessState.index_register +
                (60 / DISPLAY_WIDTH - c8WitnessState.registers 1 % DISPLAY_HEIGHT)) >>>
              (7 - (60 % DISPLAY_WIDTH - c8WitnessState.registers 0 % DISPLAY_WIDTH))) &&& 0x01 = 1
          then !(c8WitnessState.display_buffer 60) else c8WitnessState.display_buffer 60)) ∧
      ((Chip8.display { c8WitnessState with quirks := Quirks.new Platform.Chip8 } 0 1 1).map
          (fun t => t.display_buffer 60) =
        (Chip8.display { c8WitnessState with quirks := Quirks.new Platform.SuperChip } 0 1 1).map
          (fun t => t.display_buffer 60))) :=
  ⟨by decide, by decide, by decide, by decide,
    c8_draw_modulo_and_clipping c8WitnessState 0 1 1 60
      (Quirks.new Platform.Chip8) (Quirks.new Platform.SuperChip)
      (by decide) (by decide) (by decide) (by decide)⟩
